import Mathlib

/-!
Shallow embedding of the Alteryx python-sdk-samples plugin tools, together
with theorems settling the specification claims about them.

Each namespace below embeds one tool engine from the repository.  Pure
record-handling logic is translated into executable Lean functions; the
host SDK primitives (`RecordInfo`, `RecordCopier`, output anchors) are
modelled by explicit state: an output anchor is a list of pushed records,
a record creator is a list of optional field values, and messages emitted
through `alteryx_engine.output_message` are collected in lists.  Python
exceptions are modelled with `Except`/option-style results.
-/

namespace PySDK

/-- Python exception kinds that the embedded code can raise. -/
inductive PyExc where
  | typeError
  | valueError
  | attributeError
  | stopIteration
  | indexError
deriving Repr, DecidableEq

/-- Message severities used with `alteryx_engine.output_message`. -/
inductive MsgType where
  | error
  | info
deriving Repr, DecidableEq

/-- An emitted engine message: severity and text. -/
def Message := MsgType × String
deriving instance Repr, DecidableEq for Message

/-- Whitespace characters stripped by Python's `int(str)` (ASCII subset). -/
def isPySpace (c : Char) : Bool :=
  c = ' ' || c = '\t' || c = '\n' || c = '\r' || c = '\x0b' || c = '\x0c'

/-- Validator for the part of a Python integer literal after an optional
sign and after a leading digit: digits with single underscores that must
sit between two digits. -/
def validTail : List Char → Bool
  | [] => true
  | c :: rest =>
    if c = '_' then
      match rest with
      | [] => false
      | d :: rest2 => d.isDigit && validTail rest2
    else
      c.isDigit && validTail rest

/-- Validator for the digit part of a Python integer literal: nonempty,
starts with a digit, underscores only between digits. -/
def validDigits : List Char → Bool
  | [] => false
  | c :: rest => c.isDigit && validTail rest

/-- Numeric value of a digit string (underscores removed beforehand). -/
def digitsToNat (l : List Char) : Nat :=
  l.foldl (fun acc c => acc * 10 + (c.toNat - '0'.toNat)) 0

/-- Strip leading and trailing Python whitespace from a character list. -/
def stripPySpaces (cs : List Char) : List Char :=
  ((cs.dropWhile isPySpace).reverse.dropWhile isPySpace).reverse

/-- Embedding of Python's `int(s)` on a string argument: `some n` when the
string is a valid (base-10) integer literal, `none` when `int` would raise
`ValueError`. -/
def parsePyInt (s : String) : Option Int :=
  match stripPySpaces s.toList with
  | '+' :: rest =>
    if validDigits rest then some (Int.ofNat (digitsToNat (rest.filter (fun c => c ≠ '_')))) else none
  | '-' :: rest =>
    if validDigits rest then some (-(Int.ofNat (digitsToNat (rest.filter (fun c => c ≠ '_'))))) else none
  | rest =>
    if validDigits rest then some (Int.ofNat (digitsToNat (rest.filter (fun c => c ≠ '_')))) else none

/-- Embedding of Python's `int(x)` applied to `n_record_select`, which is
either a string (the `NRecords` element's text) or `None`: `int(None)`
raises `TypeError`, a non-literal string raises `ValueError`. -/
def pythonIntOpt : Option String → Except PyExc Int
  | none => .error .typeError
  | some s =>
    match parsePyInt s with
    | some n => .ok n
    | none => .error .valueError

end PySDK

namespace PySelectTopN

/-!
Embedding of `PySingleInputOutputToolExample/PySelectTopNEngine.py`,
class `AyxPlugin` (which also carries the incoming-interface methods).
Records are abstract (`α`); the output anchor is the list `pushed`.
-/

open PySDK

/-- The plugin state relevant to `ii_push_record`:
`initialized` is set by `ii_init`, `n_record_select` is the text of the
`NRecords` element captured in `pi_init` (or `None`), `record_cnt` counts
the push calls, and `pushed` models the output anchor's stream. -/
structure State (α : Type) where
  initialized : Bool
  n_record_select : Option String
  record_cnt : Nat
  pushed : List α
deriving Repr, DecidableEq

/-- `AyxPlugin.ii_push_record` of `PySelectTopNEngine.py`:
returns `False` when not initialized; otherwise increments `record_cnt`,
copies the record, and pushes it only while `record_cnt <= int(n_record_select)`.
The `int(...)` conversion happens on every call and can raise.
`output_anchor.push_record` is modelled as always succeeding. -/
def ii_push_record (st : State α) (in_record : α) : Except PyExc (Bool × State α) :=
  if !st.initialized then
    .ok (false, st)
  else
    let st1 : State α := { st with record_cnt := st.record_cnt + 1 }
    match pythonIntOpt st1.n_record_select with
    | .error e => .error e
    | .ok n =>
      if (st1.record_cnt : Int) ≤ n then
        .ok (true, { st1 with pushed := st1.pushed ++ [in_record] })
      else
        .ok (true, st1)

/-- Host driver: feed a stream of records to `ii_push_record`, stopping
when a call returns `False` (the engine stops sending records then) or
raises.  Returns the raised exception, if any, and the final state. -/
def run (st : State α) : List α → Option PyExc × State α
  | [] => (none, st)
  | r :: rs =>
    match ii_push_record st r with
    | .error e => (some e, st)
    | .ok (true, st') => run st' rs
    | .ok (false, st') => (none, st')

/-- The state right after a successful `ii_init` following `pi_init`
with `NRecords` text `s`. -/
def initState (α : Type) (s : String) : State α :=
  { initialized := true, n_record_select := some s, record_cnt := 0, pushed := [] }

end PySelectTopN

namespace SingleInOut

/-!
Embedding of `Python - Single Input Output/Python - Single Input OutputEngine.py`,
class `IncomingInterface` (with the parent `AyxPlugin`'s `n_record_select`).
-/

open PySDK

/-- State of the incoming interface and its parent:
`record_cnt` counts push calls, `n_record_select` is the parent plugin's
captured `NRecords` text (or `None` when the element was absent), and
`pushed` models the output anchor. -/
structure State (α : Type) where
  n_record_select : Option String
  record_cnt : Nat
  pushed : List α
deriving Repr, DecidableEq

/-- `IncomingInterface.ii_push_record`: increments `record_cnt`, then
pushes the incoming record while `record_cnt <= int(parent.n_record_select)`
and returns `True`; once past the limit it returns `False` without
pushing.  The `int(...)` re-parse happens on every call and can raise. -/
def ii_push_record (st : State α) (in_record : α) : Except PyExc (Bool × State α) :=
  let st1 : State α := { st with record_cnt := st.record_cnt + 1 }
  match pythonIntOpt st1.n_record_select with
  | .error e => .error e
  | .ok n =>
    if (st1.record_cnt : Int) ≤ n then
      .ok (true, { st1 with pushed := st1.pushed ++ [in_record] })
    else
      .ok (false, st1)

/-- Host driver, as in `PySelectTopN.run`. -/
def run (st : State α) : List α → Option PyExc × State α
  | [] => (none, st)
  | r :: rs =>
    match ii_push_record st r with
    | .error e => (some e, st)
    | .ok (true, st') => run st' rs
    | .ok (false, st') => (none, st')

/-- The state right after a successful `ii_init` following `pi_init`
that captured `NRecords` text `s`. -/
def initState (α : Type) (s : String) : State α :=
  { n_record_select := some s, record_cnt := 0, pushed := [] }

end SingleInOut

namespace SIOExample

/-!
Embedding of
`PySingleInputOutputToolExample/PySingleInputOutputToolExampleEngine.py`,
class `IncomingInterface`.  Its `ii_push_record` has the same limit logic
as `SingleInOut` (it additionally copies the record through a
`RecordCopier` before pushing, which does not change the pushed data).
-/

open PySDK

/-- State of the incoming interface and parent plugin. -/
structure State (α : Type) where
  n_record_select : Option String
  record_cnt : Nat
  pushed : List α
deriving Repr, DecidableEq

/-- `IncomingInterface.ii_push_record`: increments `record_cnt`, pushes
while `record_cnt <= int(parent.n_record_select)` returning `True`,
otherwise returns `False` without pushing. -/
def ii_push_record (st : State α) (in_record : α) : Except PyExc (Bool × State α) :=
  let st1 : State α := { st with record_cnt := st.record_cnt + 1 }
  match pythonIntOpt st1.n_record_select with
  | .error e => .error e
  | .ok n =>
    if (st1.record_cnt : Int) ≤ n then
      .ok (true, { st1 with pushed := st1.pushed ++ [in_record] })
    else
      .ok (false, st1)

/-- Host driver, as in `PySelectTopN.run`. -/
def run (st : State α) : List α → Option PyExc × State α
  | [] => (none, st)
  | r :: rs =>
    match ii_push_record st r with
    | .error e => (some e, st)
    | .ok (true, st') => run st' rs
    | .ok (false, st') => (none, st')

end SIOExample

namespace PySelectTopN

open PySDK

/-- Characterization of the driver for `PySelectTopNEngine`: with a valid
nonnegative limit it never raises nor stops, and appends exactly the first
`N - record_cnt` records of the stream to the anchor. -/
theorem pySelectTopN_run_take {α : Type} (s : String) (N : Int) (hs : parsePyInt s = some N)
    (hN : 0 ≤ N) (stream : List α) :
    ∀ st : State α, st.initialized = true → st.n_record_select = some s →
      (run st stream).1 = none ∧
      (run st stream).2.pushed = st.pushed ++ stream.take (N.toNat - st.record_cnt) := by
  induction stream with
  | nil =>
    intro st _ _
    simp [run]
  | cons r rs ih =>
    intro st hi hn
    have hparse : pythonIntOpt (some s) = .ok N := by
      simp [pythonIntOpt, hs]
    by_cases hle : ((st.record_cnt + 1 : Nat) : Int) ≤ N
    · have h1 : ii_push_record st r =
          .ok (true, { st with record_cnt := st.record_cnt + 1,
                               pushed := st.pushed ++ [r] }) := by
        simp [ii_push_record, hi, hn, hparse, hle]
        omega
      have hcnt : N.toNat - st.record_cnt = (N.toNat - (st.record_cnt + 1)) + 1 := by
        omega
      have := ih { st with record_cnt := st.record_cnt + 1, pushed := st.pushed ++ [r] }
        (by simpa using hi) (by simpa using hn)
      simp only [run, h1]
      refine ⟨this.1, ?_⟩
      rw [this.2, hcnt, List.take_succ_cons]
      simp
    · have h1 : ii_push_record st r =
          .ok (true, { st with record_cnt := st.record_cnt + 1 }) := by
        simp [ii_push_record, hi, hn, hparse, hle]
        omega
      have hcnt0 : N.toNat - st.record_cnt = 0 := by omega
      have hcnt1 : N.toNat - (st.record_cnt + 1) = 0 := by omega
      have := ih { st with record_cnt := st.record_cnt + 1 }
        (by simpa using hi) (by simpa using hn)
      simp only [run, h1]
      refine ⟨this.1, ?_⟩
      rw [this.2, hcnt0, hcnt1]
      simp

end PySelectTopN

namespace SingleInOut

open PySDK

/-- Characterization of the driver for the `Python - Single Input Output`
incoming interface: with a valid nonnegative limit it never raises, and the
anchor receives exactly the first `N - record_cnt` records of the stream
(the engine stops once a call returns `False`). -/
theorem singleInOut_run_take {α : Type} (s : String) (N : Int) (hs : parsePyInt s = some N)
    (hN : 0 ≤ N) (stream : List α) :
    ∀ st : State α, st.n_record_select = some s →
      (run st stream).1 = none ∧
      (run st stream).2.pushed = st.pushed ++ stream.take (N.toNat - st.record_cnt) := by
  induction stream with
  | nil =>
    intro st _
    simp [run]
  | cons r rs ih =>
    intro st hn
    have hparse : pythonIntOpt (some s) = .ok N := by
      simp [pythonIntOpt, hs]
    by_cases hle : ((st.record_cnt + 1 : Nat) : Int) ≤ N
    · have h1 : ii_push_record st r =
          .ok (true, { st with record_cnt := st.record_cnt + 1,
                               pushed := st.pushed ++ [r] }) := by
        simp [ii_push_record, hn, hparse, hle]
        omega
      have hcnt : N.toNat - st.record_cnt = (N.toNat - (st.record_cnt + 1)) + 1 := by
        omega
      have := ih { st with record_cnt := st.record_cnt + 1, pushed := st.pushed ++ [r] }
        (by simpa using hn)
      simp only [run, h1]
      refine ⟨this.1, ?_⟩
      rw [this.2, hcnt, List.take_succ_cons]
      simp
    · have h1 : ii_push_record st r =
          .ok (false, { st with record_cnt := st.record_cnt + 1 }) := by
        simp [ii_push_record, hn, hparse, hle]
        omega
      have hcnt0 : N.toNat - st.record_cnt = 0 := by omega
      simp only [run, h1]
      rw [hcnt0]
      simp

end SingleInOut

namespace SIOExample

open PySDK

/-- Characterization of the driver for the
`PySingleInputOutputToolExample` incoming interface, as in
`SingleInOut.run_take`. -/
theorem sioExample_run_take {α : Type} (s : String) (N : Int) (hs : parsePyInt s = some N)
    (hN : 0 ≤ N) (stream : List α) :
    ∀ st : State α, st.n_record_select = some s →
      (run st stream).1 = none ∧
      (run st stream).2.pushed = st.pushed ++ stream.take (N.toNat - st.record_cnt) := by
  induction stream with
  | nil =>
    intro st _
    simp [run]
  | cons r rs ih =>
    intro st hn
    have hparse : pythonIntOpt (some s) = .ok N := by
      simp [pythonIntOpt, hs]
    by_cases hle : ((st.record_cnt + 1 : Nat) : Int) ≤ N
    · have h1 : ii_push_record st r =
          .ok (true, { st with record_cnt := st.record_cnt + 1,
                               pushed := st.pushed ++ [r] }) := by
        simp [ii_push_record, hn, hparse, hle]
        omega
      have hcnt : N.toNat - st.record_cnt = (N.toNat - (st.record_cnt + 1)) + 1 := by
        omega
      have := ih { st with record_cnt := st.record_cnt + 1, pushed := st.pushed ++ [r] }
        (by simpa using hn)
      simp only [run, h1]
      refine ⟨this.1, ?_⟩
      rw [this.2, hcnt, List.take_succ_cons]
      simp
    · have h1 : ii_push_record st r =
          .ok (false, { st with record_cnt := st.record_cnt + 1 }) := by
        simp [ii_push_record, hn, hparse, hle]
        omega
      have hcnt0 : N.toNat - st.record_cnt = 0 := by omega
      simp only [run, h1]
      rw [hcnt0]
      simp

end SIOExample

/-- C1 (amended): for the record-limiting tools with limit `N` parsed from
the `NRecords` text, the `k`-th `ii_push_record` call after a successful
`ii_init` pushes the record and returns `True` when `k ≤ N`; when `k > N`
no record is pushed, and the two `IncomingInterface`-based tools return
`False` while `PySelectTopNEngine` returns `True`; in all three tools a
stream of `K` records leaves exactly `min(K, N)` records on the output
anchor — the first `min(K, N)` records in arrival order. -/
theorem topN_record_limit {α : Type} (s : String) (N : Int)
    (hs : PySDK.parsePyInt s = some N) (hN : 0 ≤ N) :
    (∀ (st : SingleInOut.State α) (rec : α), st.n_record_select = some s →
        (((st.record_cnt : Int) + 1 ≤ N) →
          SingleInOut.ii_push_record st rec =
            .ok (true, { st with record_cnt := st.record_cnt + 1,
                                 pushed := st.pushed ++ [rec] })) ∧
        ((N < (st.record_cnt : Int) + 1) →
          SingleInOut.ii_push_record st rec =
            .ok (false, { st with record_cnt := st.record_cnt + 1 }))) ∧
    (∀ (st : SIOExample.State α) (rec : α), st.n_record_select = some s →
        (((st.record_cnt : Int) + 1 ≤ N) →
          SIOExample.ii_push_record st rec =
            .ok (true, { st with record_cnt := st.record_cnt + 1,
                                 pushed := st.pushed ++ [rec] })) ∧
        ((N < (st.record_cnt : Int) + 1) →
          SIOExample.ii_push_record st rec =
            .ok (false, { st with record_cnt := st.record_cnt + 1 }))) ∧
    (∀ (st : PySelectTopN.State α) (rec : α),
        st.initialized = true → st.n_record_select = some s →
        (((st.record_cnt : Int) + 1 ≤ N) →
          PySelectTopN.ii_push_record st rec =
            .ok (true, { st with record_cnt := st.record_cnt + 1,
                                 pushed := st.pushed ++ [rec] })) ∧
        ((N < (st.record_cnt : Int) + 1) →
          PySelectTopN.ii_push_record st rec =
            .ok (true, { st with record_cnt := st.record_cnt + 1 }))) ∧
    (∀ stream : List α,
        (SingleInOut.run (SingleInOut.initState α s) stream).2.pushed = stream.take N.toNat ∧
        ((SingleInOut.run (SingleInOut.initState α s) stream).2.pushed).length =
          min stream.length N.toNat) ∧
    (∀ stream : List α,
        (SIOExample.run (⟨some s, 0, []⟩ : SIOExample.State α) stream).2.pushed =
          stream.take N.toNat ∧
        ((SIOExample.run (⟨some s, 0, []⟩ : SIOExample.State α) stream).2.pushed).length =
          min stream.length N.toNat) ∧
    (∀ stream : List α,
        (PySelectTopN.run (PySelectTopN.initState α s) stream).2.pushed = stream.take N.toNat ∧
        ((PySelectTopN.run (PySelectTopN.initState α s) stream).2.pushed).length =
          min stream.length N.toNat) := by
  have hparse : PySDK.pythonIntOpt (some s) = .ok N := by
    simp [PySDK.pythonIntOpt, hs]
  refine ⟨?_, ?_, ?_, ?_, ?_, ?_⟩
  · intro st rec hn
    constructor
    · intro hle
      simp [SingleInOut.ii_push_record, hn, hparse]
      omega
    · intro hgt
      simp [SingleInOut.ii_push_record, hn, hparse]
      omega
  · intro st rec hn
    constructor
    · intro hle
      simp [SIOExample.ii_push_record, hn, hparse]
      omega
    · intro hgt
      simp [SIOExample.ii_push_record, hn, hparse]
      omega
  · intro st rec hi hn
    constructor
    · intro hle
      simp [PySelectTopN.ii_push_record, hi, hn, hparse]
      omega
    · intro hgt
      simp [PySelectTopN.ii_push_record, hi, hn, hparse]
      omega
  · intro stream
    have h := SingleInOut.singleInOut_run_take s N hs hN stream (SingleInOut.initState α s) rfl
    have hp : (SingleInOut.run (SingleInOut.initState α s) stream).2.pushed =
        stream.take N.toNat := by
      simpa [SingleInOut.initState] using h.2
    exact ⟨hp, by simp [hp, Nat.min_comm]⟩
  · intro stream
    have h := SIOExample.sioExample_run_take s N hs hN stream (⟨some s, 0, []⟩ : SIOExample.State α) rfl
    have hp : (SIOExample.run (⟨some s, 0, []⟩ : SIOExample.State α) stream).2.pushed =
        stream.take N.toNat := by
      simpa using h.2
    exact ⟨hp, by simp [hp, Nat.min_comm]⟩
  · intro stream
    have h := PySelectTopN.pySelectTopN_run_take s N hs hN stream (PySelectTopN.initState α s) rfl rfl
    have hp : (PySelectTopN.run (PySelectTopN.initState α s) stream).2.pushed =
        stream.take N.toNat := by
      simpa [PySelectTopN.initState] using h.2
    exact ⟨hp, by simp [hp, Nat.min_comm]⟩

/-- Witness for `topN_record_limit` at limit text `"2"` and a concrete
three-record stream: each tool emits exactly the first two records. -/
theorem topN_record_limit_witness :
    (SingleInOut.run (SingleInOut.initState Nat "2") [10, 20, 30]).2.pushed = [10, 20] ∧
    (SIOExample.run (⟨some "2", 0, []⟩ : SIOExample.State Nat) [10, 20, 30]).2.pushed =
      [10, 20] ∧
    (PySelectTopN.run (PySelectTopN.initState Nat "2") [10, 20, 30]).2.pushed = [10, 20] := by
  obtain ⟨-, -, -, h4, h5, h6⟩ := topN_record_limit (α := Nat) "2" 2 (by decide) (by decide)
  refine ⟨?_, ?_, ?_⟩
  · simpa using (h4 [10, 20, 30]).1
  · simpa using (h5 [10, 20, 30]).1
  · simpa using (h6 [10, 20, 30]).1

/-- C1 counterexample: in `PySelectTopNEngine`, with limit `N = 1`, the
second `ii_push_record` call (so `k = 2 > N`) pushes nothing but returns
`True`, not `False` as the claim states. -/
theorem pySelectTopN_over_limit_counterexample :
    PySelectTopN.ii_push_record (⟨true, some "1", 1, [10]⟩ : PySelectTopN.State Nat) 20 =
      .ok (true, ⟨true, some "1", 2, [10]⟩) ∧
    ¬ ∃ st' : PySelectTopN.State Nat,
        PySelectTopN.ii_push_record (⟨true, some "1", 1, [10]⟩ : PySelectTopN.State Nat) 20 =
          .ok (false, st') := by
  have heval : PySelectTopN.ii_push_record
      (⟨true, some "1", 1, [10]⟩ : PySelectTopN.State Nat) 20 =
      .ok (true, ⟨true, some "1", 2, [10]⟩) := by rfl
  refine ⟨heval, ?_⟩
  rintro ⟨st', h⟩
  rw [heval] at h
  simp at h

/-- C10: in all three top-N tools, `ii_push_record` re-parses the limit
with `int(n_record_select)` on every call; with a limit that is `None` or
a non-integer string, every call after initialization raises (`TypeError`
or `ValueError` respectively) instead of returning a Boolean, and no
record is ever pushed. -/
theorem topN_invalid_limit_raises {α : Type} (lim : Option String) (e : PySDK.PyExc)
    (hbad : PySDK.pythonIntOpt lim = .error e) :
    (∀ (st : PySelectTopN.State α) (rec : α),
        st.initialized = true → st.n_record_select = lim →
        PySelectTopN.ii_push_record st rec = .error e) ∧
    (∀ (st : SingleInOut.State α) (rec : α), st.n_record_select = lim →
        SingleInOut.ii_push_record st rec = .error e) ∧
    (∀ (st : SIOExample.State α) (rec : α), st.n_record_select = lim →
        SIOExample.ii_push_record st rec = .error e) ∧
    (∀ stream : List α, stream ≠ [] →
        PySelectTopN.run (⟨true, lim, 0, []⟩ : PySelectTopN.State α) stream =
          (some e, ⟨true, lim, 0, []⟩)) ∧
    (∀ stream : List α, stream ≠ [] →
        SingleInOut.run (⟨lim, 0, []⟩ : SingleInOut.State α) stream =
          (some e, ⟨lim, 0, []⟩)) ∧
    (∀ stream : List α, stream ≠ [] →
        SIOExample.run (⟨lim, 0, []⟩ : SIOExample.State α) stream =
          (some e, ⟨lim, 0, []⟩)) := by
  have h1 : ∀ (st : PySelectTopN.State α) (rec : α),
      st.initialized = true → st.n_record_select = lim →
      PySelectTopN.ii_push_record st rec = .error e := by
    intro st rec hi hn
    simp [PySelectTopN.ii_push_record, hi, hn, hbad]
  have h2 : ∀ (st : SingleInOut.State α) (rec : α), st.n_record_select = lim →
      SingleInOut.ii_push_record st rec = .error e := by
    intro st rec hn
    simp [SingleInOut.ii_push_record, hn, hbad]
  have h3 : ∀ (st : SIOExample.State α) (rec : α), st.n_record_select = lim →
      SIOExample.ii_push_record st rec = .error e := by
    intro st rec hn
    simp [SIOExample.ii_push_record, hn, hbad]
  refine ⟨h1, h2, h3, ?_, ?_, ?_⟩
  · intro stream hne
    cases stream with
    | nil => exact absurd rfl hne
    | cons r rs => simp [PySelectTopN.run, h1 (⟨true, lim, 0, []⟩ : PySelectTopN.State α) r rfl rfl]
  · intro stream hne
    cases stream with
    | nil => exact absurd rfl hne
    | cons r rs => simp [SingleInOut.run, h2 (⟨lim, 0, []⟩ : SingleInOut.State α) r rfl]
  · intro stream hne
    cases stream with
    | nil => exact absurd rfl hne
    | cons r rs => simp [SIOExample.run, h3 (⟨lim, 0, []⟩ : SIOExample.State α) r rfl]

/-- Witness for `topN_invalid_limit_raises` at the concrete non-integer
limit text `"five"` and at the absent-element limit `None`. -/
theorem topN_invalid_limit_raises_witness :
    SingleInOut.ii_push_record (⟨some "five", 0, []⟩ : SingleInOut.State Nat) 10 =
      .error .valueError ∧
    PySelectTopN.run (⟨true, some "five", 0, []⟩ : PySelectTopN.State Nat) [1, 2] =
      (some .valueError, ⟨true, some "five", 0, []⟩) ∧
    SingleInOut.run (⟨none, 0, []⟩ : SingleInOut.State Nat) [1] =
      (some .typeError, ⟨none, 0, []⟩) := by
  obtain ⟨-, hv2, -, hv4, -, -⟩ :=
    topN_invalid_limit_raises (α := Nat) (some "five") .valueError (by rfl)
  obtain ⟨-, -, -, -, hn5, -⟩ :=
    topN_invalid_limit_raises (α := Nat) none .typeError (by rfl)
  exact ⟨hv2 _ 10 rfl, hv4 [1, 2] (by simp), hn5 [1] (by simp)⟩

namespace MultiOutDedup

/-!
Embedding of `PyMultipleOutputsToolExample/PyMultipleOutputsToolExampleEngine.py`,
classes `NonInterface` and `AyxPlugin`.  The user-selected key field's
string value (`record_info_in[field_index].get_as_string(in_record)`) is
passed alongside the abstract record.  The Python `set` is modelled as a
duplicate-free list with append-if-absent insertion; the two output
anchors are the lists `unique_pushed` and `dupe_pushed`.
-/

open PySDK

/-- Plugin state: `key_set_current` models the Python set of key values,
`key_set_previous_len` is the stored previous set length, and the two
pushed lists model the `Unique` and `Duplicate` anchors. -/
structure State (α : Type) where
  initialized : Bool
  key_set_current : List String
  key_set_previous_len : Nat
  unique_pushed : List α
  dupe_pushed : List α
deriving Repr, DecidableEq

/-- Python `set.add`: appends the key when absent, otherwise leaves the
set unchanged. -/
def set_add (s : List String) (k : String) : List String :=
  if k ∈ s then s else s ++ [k]

/-- `AyxPlugin.ii_push_record`: returns `False` untouched when `ii_init`
has not run; otherwise adds the key to the current set, routes the record
to the `Unique` anchor when the set strictly grew
(`NonInterface.set_output_direction`), else to the `Duplicate` anchor,
updates the stored previous length
(`NonInterface.set_key_set_previous_len`), and returns the push result
(modelled as succeeding). -/
def ii_push_record (st : State α) (key : String) (in_record : α) : Bool × State α :=
  if !st.initialized then
    (false, st)
  else
    let key_set_current := set_add st.key_set_current key
    let target_is_unique := decide (st.key_set_previous_len < key_set_current.length)
    (true,
      { st with
        key_set_current := key_set_current,
        key_set_previous_len := key_set_current.length,
        unique_pushed :=
          if target_is_unique then st.unique_pushed ++ [in_record] else st.unique_pushed,
        dupe_pushed :=
          if target_is_unique then st.dupe_pushed else st.dupe_pushed ++ [in_record] })

/-- Host driver: feed (key, record) pairs, stopping if a call returns
`False`. -/
def run (st : State α) : List (String × α) → State α
  | [] => st
  | (k, r) :: rest =>
    match ii_push_record st k r with
    | (true, st') => run st' rest
    | (false, st') => st'

/-- State right after a successful `ii_init`: empty key set, previous
length `0`, both anchors empty. -/
def initState (α : Type) : State α :=
  { initialized := true, key_set_current := [], key_set_previous_len := 0,
    unique_pushed := [], dupe_pushed := [] }

/-- Invariant of the processing loop: the run stays initialized, the
stored previous length always equals the current set's size, and the key
set holds exactly the keys seen so far. -/
theorem run_invariant {α : Type} (stream : List (String × α)) :
    ∀ st : State α, st.initialized = true →
      st.key_set_previous_len = st.key_set_current.length →
      (run st stream).initialized = true ∧
      (run st stream).key_set_previous_len = (run st stream).key_set_current.length ∧
      (∀ x, x ∈ (run st stream).key_set_current ↔
        x ∈ st.key_set_current ∨ x ∈ stream.map Prod.fst) := by
  induction stream with
  | nil =>
    intro st hi hp
    simp [run, hi, hp]
  | cons kr rest ih =>
    intro st hi hp
    obtain ⟨k, r⟩ := kr
    have hstep : ii_push_record st k r =
        (true,
          { st with
            key_set_current := set_add st.key_set_current k,
            key_set_previous_len := (set_add st.key_set_current k).length,
            unique_pushed :=
              if decide (st.key_set_previous_len < (set_add st.key_set_current k).length)
              then st.unique_pushed ++ [r] else st.unique_pushed,
            dupe_pushed :=
              if decide (st.key_set_previous_len < (set_add st.key_set_current k).length)
              then st.dupe_pushed else st.dupe_pushed ++ [r] }) := by
      simp [ii_push_record, hi]
    have hmem : ∀ x, x ∈ set_add st.key_set_current k ↔
        x ∈ st.key_set_current ∨ x = k := by
      intro x
      unfold set_add
      by_cases hk : k ∈ st.key_set_current
      · rw [if_pos hk]
        constructor
        · exact Or.inl
        · rintro (h | rfl)
          · exact h
          · exact hk
      · rw [if_neg hk]
        simp
    have := ih
      { st with
        key_set_current := set_add st.key_set_current k,
        key_set_previous_len := (set_add st.key_set_current k).length,
        unique_pushed :=
          if decide (st.key_set_previous_len < (set_add st.key_set_current k).length)
          then st.unique_pushed ++ [r] else st.unique_pushed,
        dupe_pushed :=
          if decide (st.key_set_previous_len < (set_add st.key_set_current k).length)
          then st.dupe_pushed else st.dupe_pushed ++ [r] }
      (by simpa using hi) (by simp)
    simp only [run, hstep]
    refine ⟨this.1, this.2.1, ?_⟩
    intro x
    rw [this.2.2 x]
    simp only [List.map_cons, List.mem_cons]
    rw [hmem x]
    tauto

end MultiOutDedup

/-- C3: for the deduplication tool (`PyMultipleOutputsToolExample`), after
a successful `ii_init` every `ii_push_record` call pushes exactly one
record: to the `Unique` anchor iff the key field's string value has not
occurred in any earlier record of the stream (adding it strictly grew the
key set), to the `Duplicate` anchor otherwise; without `ii_init` the call
returns `False` and pushes nothing. -/
theorem dedup_unique_duplicate_routing {α : Type} (stream : List (String × α))
    (key : String) (rec : α) :
    (∀ st : MultiOutDedup.State α, st.initialized = false →
        MultiOutDedup.ii_push_record st key rec = (false, st)) ∧
    ((MultiOutDedup.ii_push_record
        (MultiOutDedup.run (MultiOutDedup.initState α) stream) key rec).1 = true) ∧
    ((MultiOutDedup.ii_push_record
          (MultiOutDedup.run (MultiOutDedup.initState α) stream) key rec).2.unique_pushed.length +
        (MultiOutDedup.ii_push_record
          (MultiOutDedup.run (MultiOutDedup.initState α) stream) key rec).2.dupe_pushed.length =
      (MultiOutDedup.run (MultiOutDedup.initState α) stream).unique_pushed.length +
        (MultiOutDedup.run (MultiOutDedup.initState α) stream).dupe_pushed.length + 1) ∧
    (key ∉ stream.map Prod.fst →
        (MultiOutDedup.ii_push_record
            (MultiOutDedup.run (MultiOutDedup.initState α) stream) key rec).2.unique_pushed =
          (MultiOutDedup.run (MultiOutDedup.initState α) stream).unique_pushed ++ [rec] ∧
        (MultiOutDedup.ii_push_record
            (MultiOutDedup.run (MultiOutDedup.initState α) stream) key rec).2.dupe_pushed =
          (MultiOutDedup.run (MultiOutDedup.initState α) stream).dupe_pushed) ∧
    (key ∈ stream.map Prod.fst →
        (MultiOutDedup.ii_push_record
            (MultiOutDedup.run (MultiOutDedup.initState α) stream) key rec).2.dupe_pushed =
          (MultiOutDedup.run (MultiOutDedup.initState α) stream).dupe_pushed ++ [rec] ∧
        (MultiOutDedup.ii_push_record
            (MultiOutDedup.run (MultiOutDedup.initState α) stream) key rec).2.unique_pushed =
          (MultiOutDedup.run (MultiOutDedup.initState α) stream).unique_pushed) := by
  obtain ⟨hi, hp, hmem⟩ :=
    MultiOutDedup.run_invariant stream (MultiOutDedup.initState α) rfl rfl
  have hmem' : ∀ x,
      x ∈ (MultiOutDedup.run (MultiOutDedup.initState α) stream).key_set_current ↔
        x ∈ stream.map Prod.fst := by
    intro x
    simpa [MultiOutDedup.initState] using hmem x
  have hgrow : key ∉ (MultiOutDedup.run (MultiOutDedup.initState α) stream).key_set_current →
      (MultiOutDedup.set_add
          (MultiOutDedup.run (MultiOutDedup.initState α) stream).key_set_current key).length =
        (MultiOutDedup.run (MultiOutDedup.initState α) stream).key_set_current.length + 1 := by
    intro h
    simp [MultiOutDedup.set_add, h]
  have hsame : key ∈ (MultiOutDedup.run (MultiOutDedup.initState α) stream).key_set_current →
      MultiOutDedup.set_add
          (MultiOutDedup.run (MultiOutDedup.initState α) stream).key_set_current key =
        (MultiOutDedup.run (MultiOutDedup.initState α) stream).key_set_current := by
    intro h
    simp [MultiOutDedup.set_add, h]
  refine ⟨?_, ?_, ?_, ?_, ?_⟩
  · intro st0 h0
    simp [MultiOutDedup.ii_push_record, h0]
  · simp [MultiOutDedup.ii_push_record, hi]
  · by_cases hk : key ∈ (MultiOutDedup.run (MultiOutDedup.initState α) stream).key_set_current
    · have hlt : ¬ (MultiOutDedup.run (MultiOutDedup.initState α) stream).key_set_previous_len <
          (MultiOutDedup.set_add
            (MultiOutDedup.run (MultiOutDedup.initState α) stream).key_set_current key).length := by
        rw [hsame hk, hp]
        omega
      simp [MultiOutDedup.ii_push_record, hi, hlt]
      omega
    · have hlt : (MultiOutDedup.run (MultiOutDedup.initState α) stream).key_set_previous_len <
          (MultiOutDedup.set_add
            (MultiOutDedup.run (MultiOutDedup.initState α) stream).key_set_current key).length := by
        rw [hgrow hk, hp]
        omega
      simp [MultiOutDedup.ii_push_record, hi, hlt]
      omega
  · intro hnot
    have hk : key ∉ (MultiOutDedup.run (MultiOutDedup.initState α) stream).key_set_current :=
      fun h => hnot ((hmem' key).mp h)
    have hlt : (MultiOutDedup.run (MultiOutDedup.initState α) stream).key_set_previous_len <
        (MultiOutDedup.set_add
          (MultiOutDedup.run (MultiOutDedup.initState α) stream).key_set_current key).length := by
      rw [hgrow hk, hp]
      omega
    constructor <;> simp [MultiOutDedup.ii_push_record, hi, hlt]
  · intro hin
    have hk : key ∈ (MultiOutDedup.run (MultiOutDedup.initState α) stream).key_set_current :=
      (hmem' key).mpr hin
    have hlt : ¬ (MultiOutDedup.run (MultiOutDedup.initState α) stream).key_set_previous_len <
        (MultiOutDedup.set_add
          (MultiOutDedup.run (MultiOutDedup.initState α) stream).key_set_current key).length := by
      rw [hsame hk, hp]
      omega
    constructor <;> simp [MultiOutDedup.ii_push_record, hi, hlt]

namespace MultiOutSplit

/-!
Embedding of `Python - Multiple Outputs/Python - Multiple OutputsEngine.py`,
class `IncomingInterface`.  The key field's string value
(`target_field.get_as_string(in_record)`) accompanies the abstract record.
-/

open PySDK

/-- Incoming-interface state: `previous_value` starts as `None`,
`records_unique` and `records_dupe` are the counters declared in
`__init__`, and the pushed lists model the `Unique` and `Duplicate`
anchors. -/
structure State (α : Type) where
  previous_value : Option String
  records_unique : Nat
  records_dupe : Nat
  unique_pushed : List α
  dupe_pushed : List α
deriving Repr, DecidableEq

/-- Python's `==` between the current key string and `previous_value`
(a string or `None`): comparing a string with `None` yields `False`. -/
def eqPrev (current : String) : Option String → Bool
  | none => false
  | some p => current = p

/-- `IncomingInterface.ii_push_record`: routes the record to the
`Duplicate` anchor when the key equals the previous record's key, else to
the `Unique` anchor, updates `previous_value`, and returns `True`.
Neither counter is ever touched. -/
def ii_push_record (st : State α) (current_value : String) (in_record : α) :
    Bool × State α :=
  (true,
    { st with
      dupe_pushed :=
        if eqPrev current_value st.previous_value
        then st.dupe_pushed ++ [in_record] else st.dupe_pushed,
      unique_pushed :=
        if eqPrev current_value st.previous_value
        then st.unique_pushed else st.unique_pushed ++ [in_record],
      previous_value := some current_value })

/-- `IncomingInterface.ii_close`: emits the info message
`'{} unique records and {} dupes were found'.format(records_unique, records_dupe)`. -/
def ii_close (st : State α) : MsgType × String :=
  (.info,
    toString st.records_unique ++ " unique records and " ++
      toString st.records_dupe ++ " dupes were found")

/-- Host driver: every call returns `True`, so all records are processed. -/
def run (st : State α) : List (String × α) → State α
  | [] => st
  | (k, r) :: rest => run (ii_push_record st k r).2 rest

/-- Fresh interface state from `IncomingInterface.__init__`. -/
def initState (α : Type) : State α :=
  { previous_value := none, records_unique := 0, records_dupe := 0,
    unique_pushed := [], dupe_pushed := [] }

/-- The counters are never modified by the processing loop. -/
theorem run_counters {α : Type} (stream : List (String × α)) :
    ∀ st : State α,
      (run st stream).records_unique = st.records_unique ∧
      (run st stream).records_dupe = st.records_dupe := by
  induction stream with
  | nil =>
    intro st
    exact ⟨rfl, rfl⟩
  | cons kr rest ih =>
    intro st
    obtain ⟨k, r⟩ := kr
    have := ih (ii_push_record st k r).2
    simpa [run, ii_push_record] using this

end MultiOutSplit

/-- C8: in the sorted-stream duplicate-splitting tool
(`Python - Multiple Outputs`), for every input stream — each record going
to the `Duplicate` anchor iff its key equals the immediately previous
record's key, else to `Unique` — the counters `records_unique` and
`records_dupe` stay `0`, so the `ii_close` info message always reads
`"0 unique records and 0 dupes were found"`. -/
theorem multiOutSplit_counters_stay_zero {α : Type} (stream : List (String × α)) :
    (MultiOutSplit.run (MultiOutSplit.initState α) stream).records_unique = 0 ∧
    (MultiOutSplit.run (MultiOutSplit.initState α) stream).records_dupe = 0 ∧
    MultiOutSplit.ii_close (MultiOutSplit.run (MultiOutSplit.initState α) stream) =
      (.info, "0 unique records and 0 dupes were found") ∧
    (∀ (st : MultiOutSplit.State α) (k : String) (r : α),
        MultiOutSplit.eqPrev k st.previous_value = true →
          (MultiOutSplit.ii_push_record st k r).2.dupe_pushed = st.dupe_pushed ++ [r] ∧
          (MultiOutSplit.ii_push_record st k r).2.unique_pushed = st.unique_pushed) ∧
    (∀ (st : MultiOutSplit.State α) (k : String) (r : α),
        MultiOutSplit.eqPrev k st.previous_value = false →
          (MultiOutSplit.ii_push_record st k r).2.unique_pushed = st.unique_pushed ++ [r] ∧
          (MultiOutSplit.ii_push_record st k r).2.dupe_pushed = st.dupe_pushed) := by
  obtain ⟨hu, hd⟩ := MultiOutSplit.run_counters stream (MultiOutSplit.initState α)
  refine ⟨by simpa [MultiOutSplit.initState] using hu,
          by simpa [MultiOutSplit.initState] using hd, ?_, ?_, ?_⟩
  · unfold MultiOutSplit.ii_close
    rw [hu, hd]
    simp [MultiOutSplit.initState]
    rfl
  · intro st k r h
    constructor <;> simp [MultiOutSplit.ii_push_record, h]
  · intro st k r h
    constructor <;> simp [MultiOutSplit.ii_push_record, h]

namespace UnionTool

/-!
Embedding of the schema-merging loop of `AyxPlugin.record_processor` in
`Python - Single Anchor Multiple Inputs/Python - Single Anchor Multiple InputsEngine.py`;
the loop in
`PySingleMultiInputToolExample/PySingleMultiInputToolExampleEngine.py` is
line-for-line the same.  Each input connection is represented by its list
of field names, and the inputs are given in the connection order the code
establishes with `self.all_inputs.sort(...)` before the loop.  The loop
state is `unique_field_names`; `record_info_out`'s field names always
coincide with it (`init_from_xml` on the first pass, `add_field` per new
name afterwards).
-/

/-- One iteration of the schema-merging loop: when `unique_field_names`
is still empty the input's schema is adopted wholesale
(`init_from_xml`); otherwise `new_fields` — the input's names not yet in
`unique_field_names` — are appended (`add_field` and
`unique_field_names += new_fields`). -/
def mergeStep (unique_field_names inp : List String) : List String :=
  if unique_field_names.isEmpty then
    inp
  else
    unique_field_names ++ inp.filter (fun x => !unique_field_names.contains x)

/-- The whole schema-merging loop of `record_processor` over the sorted
inputs, starting from the empty `unique_field_names`. -/
def record_processor_names (inputs : List (List String)) : List String :=
  inputs.foldl mergeStep []

/-- The claim's description of the merged schema, stated in its own
words: the first input's fields in original order, then for each later
input exactly those of its names not already present, appended in
order. -/
def specUnionNames (first : List String) (rest : List (List String)) : List String :=
  rest.foldl (fun acc inp => acc ++ inp.filter (fun x => !acc.contains x)) first

/-- `mergeStep` coincides with append-new-names even on an empty
accumulator. -/
theorem mergeStep_eq (acc inp : List String) :
    mergeStep acc inp = acc ++ inp.filter (fun x => !acc.contains x) := by
  cases acc with
  | nil => simp [mergeStep]
  | cons a as => simp [mergeStep]

/-- A merge step preserves freedom from duplicates. -/
theorem mergeStep_nodup (acc inp : List String) (ha : acc.Nodup) (hi : inp.Nodup) :
    (mergeStep acc inp).Nodup := by
  rw [mergeStep_eq]
  refine List.Nodup.append ha (hi.filter _) ?_
  intro x hx hxf
  have hpx := List.of_mem_filter hxf
  simp at hpx
  exact hpx hx

/-- The merging loop preserves freedom from duplicates. -/
theorem foldl_merge_nodup (inputs : List (List String)) :
    ∀ acc : List String, acc.Nodup → (∀ inp ∈ inputs, inp.Nodup) →
      (inputs.foldl mergeStep acc).Nodup := by
  induction inputs with
  | nil =>
    intro acc ha _
    exact ha
  | cons i is ih =>
    intro acc ha hall
    simp only [List.foldl_cons]
    exact ih _ (mergeStep_nodup acc i ha (hall i (by simp)))
      (fun inp h => hall inp (by simp [h]))

/-- The merging loop computes exactly the union of the accumulated and
input field names. -/
theorem foldl_merge_mem (inputs : List (List String)) :
    ∀ (acc : List String) (x : String),
      x ∈ inputs.foldl mergeStep acc ↔ x ∈ acc ∨ ∃ inp ∈ inputs, x ∈ inp := by
  induction inputs with
  | nil =>
    intro acc x
    simp
  | cons i is ih =>
    intro acc x
    simp only [List.foldl_cons]
    rw [ih]
    rw [mergeStep_eq]
    simp only [List.mem_append, List.mem_filter]
    constructor
    · rintro ((h | ⟨h, -⟩) | ⟨inp, hinp, hx⟩)
      · exact Or.inl h
      · exact Or.inr ⟨i, by simp, h⟩
      · exact Or.inr ⟨inp, by simp [hinp], hx⟩
    · rintro (h | ⟨inp, hinp, hx⟩)
      · by_cases hacc : x ∈ acc ++ i.filter (fun y => !acc.contains y)
        · rw [List.mem_append, List.mem_filter] at hacc
          exact Or.inl hacc
        · exact Or.inl (Or.inl h)
      · rcases List.mem_cons.mp hinp with rfl | hmem
        · by_cases hacc : x ∈ acc
          · exact Or.inl (Or.inl hacc)
          · exact Or.inl (Or.inr ⟨hx, by simpa using hacc⟩)
        · exact Or.inr ⟨inp, hmem, hx⟩

end UnionTool

/-- C2: for the multi-input union tool, the merged output schema equals
the first input's field names followed, for each later input in sorted
connection order, by exactly its not-yet-present names in order; it is
the duplicate-free union of all inputs' field names, and
`unique_field_names` holds no duplicate at any step of the loop
(provided, as the host guarantees for a `RecordInfo`, that no single
input repeats a field name). -/
theorem unionTool_schema_merge (first : List String) (rest : List (List String))
    (hnodup : ∀ inp ∈ first :: rest, inp.Nodup) :
    UnionTool.record_processor_names (first :: rest) = UnionTool.specUnionNames first rest ∧
    (∀ k : Nat, (UnionTool.record_processor_names ((first :: rest).take k)).Nodup) ∧
    (∀ x, x ∈ UnionTool.record_processor_names (first :: rest) ↔
        ∃ inp ∈ first :: rest, x ∈ inp) := by
  have hfun : UnionTool.mergeStep =
      fun acc inp => acc ++ inp.filter (fun x => !acc.contains x) :=
    funext fun acc => funext fun inp => UnionTool.mergeStep_eq acc inp
  refine ⟨?_, ?_, ?_⟩
  · unfold UnionTool.record_processor_names UnionTool.specUnionNames
    simp only [List.foldl_cons]
    rw [UnionTool.mergeStep_eq]
    rw [hfun]
    simp
  · intro k
    exact UnionTool.foldl_merge_nodup ((first :: rest).take k) [] List.nodup_nil
      (fun inp h => hnodup inp (List.take_subset k _ h))
  · intro x
    unfold UnionTool.record_processor_names
    rw [UnionTool.foldl_merge_mem]
    simp

/-- Witness for `unionTool_schema_merge` on two concrete inputs with an
overlapping field name. -/
theorem unionTool_schema_merge_witness :
    UnionTool.record_processor_names [["a", "b"], ["b", "c"]] = ["a", "b", "c"] ∧
    (UnionTool.record_processor_names [["a", "b"], ["b", "c"]]).Nodup := by
  obtain ⟨h1, h2, -⟩ :=
    unionTool_schema_merge ["a", "b"] [["b", "c"]] (by decide)
  constructor
  · rw [h1]
    decide
  · simpa using h2 2

namespace MultiIn

/-!
Embedding of `PyMultipleInputsToolExample/PyMultipleInputsToolExampleEngine.py`,
classes `NonInterface` and `AyxPlugin`.  A field's comparison-relevant
metadata is its type, size and scale (the data `Sdk.Field.equal_type`
compares, per its in-code documentation); the record creator is a list of
optional Boolean field values indexed like `record_info_out`, whose
layout is the left input's fields, then the right input's, then the
trailing `IsBinaryCompatible` field, all retyped to Bool.
-/

open PySDK

/-- Comparison-relevant field metadata. -/
structure FieldMeta where
  ftype : String
  size : Nat
  scale : Nat
deriving Repr, DecidableEq

/-- `Sdk.Field.equal_type` (host SDK): true iff the two fields have the
same type, size, and scale. -/
def equal_type (a b : FieldMeta) : Bool :=
  a.ftype == b.ftype && a.size == b.size && a.scale == b.scale

/-- Plugin state after the two `ii_init` calls: `is_left` flags which
input is streaming, the hashes come from `record_info_in.get_hash()`, and
the field lists from appending each input's fields. -/
structure State where
  is_left : Bool
  hash_left : Option Int
  hash_right : Option Int
  fields_left : List FieldMeta
  fields_right : List FieldMeta
deriving Repr, DecidableEq

/-- `NonInterface.is_compatible`: true iff the two inputs' `RecordInfo`
hashes are equal (`None == None` is `True` in Python). -/
def is_compatible (st : State) : Bool :=
  st.hash_left == st.hash_right

/-- `NonInterface.is_equal(index)`: `equal_type(fields_right[index],
fields_left[index])`; an out-of-range index would raise in Python and is
modelled as `false` (unreachable from `ii_push_record`'s loop bounds). -/
def is_equal (st : State) (i : Nat) : Bool :=
  match st.fields_right.get? i, st.fields_left.get? i with
  | some r, some l => equal_type r l
  | _, _ => false

/-- The `for field in range(len(fields_right))` loop of
`ii_push_record`: after `k` iterations, positions `i` and
`i + len(fields_right)` hold `is_equal(i)` for each `i < k`. -/
def eqLoop (st : State) (c : List (Option Bool)) : Nat → List (Option Bool)
  | 0 => c
  | k + 1 =>
    ((eqLoop st c k).set k (some (is_equal st k))).set
      (k + st.fields_right.length) (some (is_equal st k))

/-- `AyxPlugin.ii_push_record`: on the left input it immediately returns
`False` pushing nothing; on the right input it fills a fresh record with
the pairwise `is_equal` results (each written at `i` and at
`i + len(fields_right)`), writes `is_compatible` at index
`len(fields_right) + len(fields_left)`, pushes the record, and returns
`False`. -/
def ii_push_record (st : State) : Bool × Option (List (Option Bool)) :=
  if st.is_left then
    (false, none)
  else
    let c0 : List (Option Bool) :=
      List.replicate (st.fields_left.length + st.fields_right.length + 1) none
    let c1 := eqLoop st c0 st.fields_right.length
    let c2 := c1.set (st.fields_right.length + st.fields_left.length)
      (some (is_compatible st))
    (false, some c2)

/-- `eqLoop` never changes the record's length. -/
theorem eqLoop_length (st : State) (c : List (Option Bool)) :
    ∀ k, (eqLoop st c k).length = c.length := by
  intro k
  induction k with
  | zero => rfl
  | succ k ih => simp [eqLoop, ih]

/-- Entry-wise description of `eqLoop` after `k ≤ n` iterations
(`n = len(fields_right)`), on a record long enough for all writes. -/
theorem eqLoop_get? (st : State) (c : List (Option Bool))
    (hlen : st.fields_right.length + st.fields_right.length ≤ c.length) :
    ∀ k, k ≤ st.fields_right.length → ∀ j,
      (eqLoop st c k).get? j =
        if j < k then some (some (is_equal st j))
        else if st.fields_right.length ≤ j ∧ j < st.fields_right.length + k then
          some (some (is_equal st (j - st.fields_right.length)))
        else c.get? j := by
  intro k
  induction k with
  | zero =>
    intro _ j
    rw [show eqLoop st c 0 = c from rfl]
    rw [if_neg (by omega : ¬ j < 0)]
    rw [if_neg (by omega : ¬ (st.fields_right.length ≤ j ∧
      j < st.fields_right.length + 0))]
  | succ k ih =>
    intro hk j
    have hk' : k ≤ st.fields_right.length := by omega
    have hn1 : 1 ≤ st.fields_right.length := by omega
    have hsetlen : ((eqLoop st c k).set k (some (is_equal st k))).length = c.length := by
      rw [List.length_set, eqLoop_length]
    have hstep : eqLoop st c (k + 1) =
        ((eqLoop st c k).set k (some (is_equal st k))).set
          (k + st.fields_right.length) (some (is_equal st k)) := rfl
    by_cases hj2 : j = k + st.fields_right.length
    · rw [hstep, hj2]
      rw [List.get?_set_eq_of_lt _
        (show k + st.fields_right.length <
          ((eqLoop st c k).set k (some (is_equal st k))).length by
          rw [hsetlen]; omega)]
      rw [if_neg (by omega : ¬ k + st.fields_right.length < k + 1)]
      rw [if_pos (by omega : st.fields_right.length ≤ k + st.fields_right.length ∧
          k + st.fields_right.length < st.fields_right.length + (k + 1))]
      rw [show k + st.fields_right.length - st.fields_right.length = k by omega]
    · by_cases hj1 : j = k
      · rw [hstep, hj1]
        rw [List.get?_set_ne _ _ (by omega : k + st.fields_right.length ≠ k)]
        rw [List.get?_set_eq_of_lt _
          (show k < (eqLoop st c k).length by rw [eqLoop_length]; omega)]
        rw [if_pos (by omega : k < k + 1)]
      · rw [hstep]
        rw [List.get?_set_ne _ _ (fun h => hj2 h.symm)]
        rw [List.get?_set_ne _ _ (fun h => hj1 h.symm)]
        rw [ih hk' j]
        by_cases hb1 : j < k
        · rw [if_pos hb1, if_pos (by omega : j < k + 1)]
        · rw [if_neg hb1]
          by_cases hb2 : st.fields_right.length ≤ j ∧ j < st.fields_right.length + k
          · rw [if_pos hb2, if_neg (by omega : ¬ j < k + 1),
              if_pos (by omega : st.fields_right.length ≤ j ∧
                j < st.fields_right.length + (k + 1))]
          · rw [if_neg hb2, if_neg (by omega : ¬ j < k + 1)]
            rw [if_neg (by omega : ¬ (st.fields_right.length ≤ j ∧
              j < st.fields_right.length + (k + 1)))]

/-- Name-mangled attributes present on an `AyxPlugin` instance: those of
`NonInterface.__init__` plus those set in `AyxPlugin.__init__`, whose
double-underscore names mangle to the `_AyxPlugin__...` forms. -/
def ayx_plugin_attrs : List String :=
  ["xml_out", "hash_right", "hash_left", "fields_right", "fields_left",
   "_AyxPlugin__n_tool_id", "name", "_AyxPlugin__alteryx_engine",
   "_AyxPlugin__generic_engine", "_AyxPlugin__output_anchor_mgr",
   "output_anchor", "record_info_out", "record_creator", "is_left"]

/-- `NonInterface.validate_inputs`: on unequal field counts it evaluates
`self.__alteryx_engine.output_message(self.__n_tool_id, ...)` — written
inside class `NonInterface`, so the lookup is for
`_NonInterface__alteryx_engine`.  If that attribute is missing the lookup
raises `AttributeError` before any message is emitted; if it existed the
message would be emitted and the `raise` of `output_message`'s `None`
result would raise `TypeError`.  Returns the raised exception (if any)
and the emitted messages. -/
def validate_inputs (attrs : List String) (left_count right_count : Nat) :
    Except PyExc Unit × List (MsgType × String) :=
  if left_count ≠ right_count then
    if attrs.contains "_NonInterface__alteryx_engine" then
      (.error .typeError, [(.error, "Both inputs must have the same number of fields.")])
    else
      (.error .attributeError, [])
  else
    (.ok (), [])

end MultiIn

/-- C4: in the binary-compatibility tool with two inputs of equal field
count `n`, the single record emitted per right-input `ii_push_record`
call has `2n+1` Boolean fields: output fields `i` and `i+n` hold
`equal_type(fields_right[i], fields_left[i])` (same type, size, scale)
for every `i < n`, the last field `IsBinaryCompatible` holds `True` iff
the two inputs' `RecordInfo` hashes are equal, and left-input calls emit
nothing. -/
theorem multiIn_compare_record (st : MultiIn.State)
    (hleft : st.fields_left.length = st.fields_right.length)
    (hright : st.is_left = false) :
    (MultiIn.ii_push_record st).1 = false ∧
    ((MultiIn.ii_push_record st).2.map List.length) =
      some (2 * st.fields_right.length + 1) ∧
    (∀ i, i < st.fields_right.length →
      ((MultiIn.ii_push_record st).2.bind (fun r => r.get? i)) =
        some (some (MultiIn.is_equal st i)) ∧
      ((MultiIn.ii_push_record st).2.bind
          (fun r => r.get? (i + st.fields_right.length))) =
        some (some (MultiIn.is_equal st i))) ∧
    (∀ i fr fl, st.fields_right.get? i = some fr → st.fields_left.get? i = some fl →
      MultiIn.is_equal st i = MultiIn.equal_type fr fl) ∧
    ((MultiIn.ii_push_record st).2.bind
        (fun r => r.get? (2 * st.fields_right.length))) =
      some (some (st.hash_left == st.hash_right)) ∧
    (∀ st2 : MultiIn.State, st2.is_left = true →
      MultiIn.ii_push_record st2 = (false, none)) := by
  have hpush : MultiIn.ii_push_record st =
      (false, some
        ((MultiIn.eqLoop st
            (List.replicate (st.fields_left.length + st.fields_right.length + 1) none)
            st.fields_right.length).set
          (st.fields_right.length + st.fields_left.length)
          (some (MultiIn.is_compatible st)))) := by
    simp [MultiIn.ii_push_record, hright]
  have hreplen :
      (List.replicate (st.fields_left.length + st.fields_right.length + 1)
        (none : Option Bool)).length =
      st.fields_left.length + st.fields_right.length + 1 := by
    simp
  have hlooplen : ∀ k, (MultiIn.eqLoop st
      (List.replicate (st.fields_left.length + st.fields_right.length + 1) none) k).length =
      st.fields_left.length + st.fields_right.length + 1 := by
    intro k
    rw [MultiIn.eqLoop_length, hreplen]
  have hget := MultiIn.eqLoop_get? st
    (List.replicate (st.fields_left.length + st.fields_right.length + 1) none)
    (by rw [hreplen]; omega) st.fields_right.length le_rfl
  refine ⟨by rw [hpush], ?_, ?_, ?_, ?_, ?_⟩
  · rw [hpush]
    simp only [Option.map_some', List.length_set]
    rw [hlooplen]
    simp only [Option.some.injEq]
    omega
  · intro i hi
    rw [hpush]
    simp only [Option.some_bind]
    constructor
    · rw [List.get?_set_ne _ _ (by omega : st.fields_right.length + st.fields_left.length ≠ i)]
      rw [hget i]
      rw [if_pos hi]
    · rw [List.get?_set_ne _ _
        (by omega : st.fields_right.length + st.fields_left.length ≠ i + st.fields_right.length)]
      rw [hget (i + st.fields_right.length)]
      rw [if_neg (by omega : ¬ i + st.fields_right.length < st.fields_right.length)]
      rw [if_pos (by omega : st.fields_right.length ≤ i + st.fields_right.length ∧
        i + st.fields_right.length < st.fields_right.length + st.fields_right.length)]
      rw [show i + st.fields_right.length - st.fields_right.length = i by omega]
  · intro i fr fl hfr hfl
    rw [List.get?_eq_getElem?] at hfr hfl
    simp [MultiIn.is_equal, hfr, hfl]
  · rw [hpush]
    simp only [Option.some_bind]
    rw [show 2 * st.fields_right.length = st.fields_right.length + st.fields_left.length by omega]
    rw [List.get?_set_eq_of_lt _ (by rw [hlooplen]; omega)]
    rfl
  · intro st2 h2
    simp [MultiIn.ii_push_record, h2]

/-- Witness for `multiIn_compare_record` on a concrete right-input state
with two fields per side, one pair matching in type/size/scale and one
not, and equal hashes. -/
theorem multiIn_compare_record_witness :
    (MultiIn.ii_push_record
        ⟨false, some 7, some 7,
          [⟨"Int32", 4, 0⟩, ⟨"V_WString", 254, 0⟩],
          [⟨"Int32", 4, 0⟩, ⟨"Double", 8, 0⟩]⟩).1 = false ∧
    ((MultiIn.ii_push_record
        ⟨false, some 7, some 7,
          [⟨"Int32", 4, 0⟩, ⟨"V_WString", 254, 0⟩],
          [⟨"Int32", 4, 0⟩, ⟨"Double", 8, 0⟩]⟩).2.map List.length) = some 5 ∧
    ((MultiIn.ii_push_record
        ⟨false, some 7, some 7,
          [⟨"Int32", 4, 0⟩, ⟨"V_WString", 254, 0⟩],
          [⟨"Int32", 4, 0⟩, ⟨"Double", 8, 0⟩]⟩).2.bind (fun r => r.get? 4)) =
      some (some true) := by
  obtain ⟨h1, h2, -, -, h5, -⟩ := multiIn_compare_record
    ⟨false, some 7, some 7,
      [⟨"Int32", 4, 0⟩, ⟨"V_WString", 254, 0⟩],
      [⟨"Int32", 4, 0⟩, ⟨"Double", 8, 0⟩]⟩ rfl rfl
  exact ⟨h1, h2, by simpa using h5⟩

/-- C9: with unequal field counts, `NonInterface.validate_inputs` (called
from the right input's `ii_init`) looks up the name-mangled attribute
`_NonInterface__alteryx_engine`, which `AyxPlugin.__init__` never created
(it set `_AyxPlugin__alteryx_engine`), so an `AttributeError` is raised
before the configured error message can be delivered and the error branch
never completes as a message. -/
theorem multiIn_validate_inputs_name_mangling (lc rc : Nat) (hne : lc ≠ rc) :
    "_NonInterface__alteryx_engine" ∉ MultiIn.ayx_plugin_attrs ∧
    MultiIn.validate_inputs MultiIn.ayx_plugin_attrs lc rc =
      (.error .attributeError, []) := by
  refine ⟨by decide, ?_⟩
  have hmem : MultiIn.ayx_plugin_attrs.contains "_NonInterface__alteryx_engine" = false := by
    decide
  simp [MultiIn.validate_inputs, hne, hmem]
  decide

/-- Witness for `multiIn_validate_inputs_name_mangling` at the concrete
field counts 2 and 3. -/
theorem multiIn_validate_inputs_name_mangling_witness :
    MultiIn.validate_inputs MultiIn.ayx_plugin_attrs 2 3 =
      (.error .attributeError, []) :=
  (multiIn_validate_inputs_name_mangling 2 3 (by decide)).2

namespace SortedIn

/-!
Embedding of `PySortedInputToolExample/PySortedInputToolExampleEngine.py`,
classes `NonInterface` and `AyxPlugin`.  `build_sort_info` is modelled at
the string level, reproducing `xml.etree.ElementTree`'s serialization of
the element it builds; a record is represented by the numeric value of
the user-selected field (after the `FieldFilterList` pre-sort filter only
that field remains).
-/

open PySDK

/-- A field of the incoming `RecordInfo`: name and type, as read from the
record XML metadata. -/
structure SortedField where
  name : String
  ftype : String
deriving Repr, DecidableEq

/-- `NonInterface.build_sort_info`: appends to `xml_sort_info` the
serialized `<element><Field field="..." [order="..."] /></element>`
string; the `order` attribute appears only when `order` is nonempty. -/
def build_sort_info (xml_sort_info element subelement order : String) : String :=
  let sub_element :=
    if order ≠ "" then
      "Field field=\"" ++ subelement ++ "\" order=\"" ++ order ++ "\""
    else
      "Field field=\"" ++ subelement ++ "\""
  xml_sort_info ++ ("<" ++ element ++ ">" ++ "<" ++ sub_element ++ " /></" ++ element ++ ">")

/-- `AyxPlugin.pi_init`: builds `<SortInfo>` with order `Asc` for the
`min` operation, `Desc` for `max`, then the `<FieldFilterList>`, starting
from the empty `xml_sort_info` of `NonInterface.__init__`.  The result is
handed to `alteryx_engine.pre_sort` in `pi_add_incoming_connection`. -/
def pi_init_sort_xml (selected_aggregation field_selection : String) : String :=
  let s1 :=
    if selected_aggregation = "min" then
      build_sort_info "" "SortInfo" field_selection "Asc"
    else if selected_aggregation = "max" then
      build_sort_info "" "SortInfo" field_selection "Desc"
    else ""
  build_sort_info s1 "FieldFilterList" field_selection ""

/-- The numeric type names accepted by `ii_init`. -/
def numericTypes : List String :=
  ["Byte", "Int16", "Int32", "Int64", "FixedDecimal", "Float", "Double"]

/-- `NonInterface.extract_field_type`: the type attribute of the first
`Field` element of the record XML metadata (an empty `RecordInfo`, which
would raise in Python, yields the empty type). -/
def extract_field_type (record_info_in : List SortedField) : String :=
  (record_info_in.headD ⟨"", ""⟩).ftype

/-- `RecordInfo.rename_field_by_name` (host SDK): renames the fields
whose name matches. -/
def rename_field_by_name (fields : List SortedField) (old_name new_name : String) :
    List SortedField :=
  fields.map (fun fl => if fl.name = old_name then { fl with name := new_name } else fl)

/-- `AyxPlugin.ii_init`: rejects (returning `False` with an error
message, staying uninitialized) unless the selected field's type is
numeric; on success renames the output field to
`'{0}_{1}'.format(selected_aggregation, field_selection)` and returns
`True` with the outgoing schema. -/
def ii_init (selected_aggregation field_selection : String)
    (record_info_in : List SortedField) :
    Bool × Option (List SortedField) × List (MsgType × String) :=
  if ¬ numericTypes.contains (extract_field_type record_info_in) then
    (false, none, [(.error, "Selected A Non-Numeric Field")])
  else
    (true,
      some (rename_field_by_name record_info_in field_selection
        (selected_aggregation ++ "_" ++ field_selection)),
      [])

/-- `AyxPlugin.ii_push_record`: copies the record, pushes it, and returns
`False`. -/
def ii_push_record (pushed : List α) (in_record : α) : Bool × List α :=
  (false, pushed ++ [in_record])

/-- Host driver: feed records until a call returns `False`. -/
def run (pushed : List α) : List α → List α
  | [] => pushed
  | r :: rs =>
    match ii_push_record pushed r with
    | (true, p') => run p' rs
    | (false, p') => p'

end SortedIn

/-- C5: for the sort-then-reduce tool, `pi_init` builds an ascending
(`Asc`) pre-sort request on the selected field for the `min` operation
and a descending (`Desc`) one for `max`; `ii_init` returns `False` with
an error message unless the selected field's type is one of Byte, Int16,
Int32, Int64, FixedDecimal, Float, Double, and on success renames the
output field to `<operation>_<field>`; and on every non-empty pre-sorted
stream exactly one record — the first, carrying the minimum
(resp. maximum) value — is pushed, because `ii_push_record` pushes and
then returns `False`. -/
theorem sortedTool_min_max :
    (∀ f : String,
      SortedIn.pi_init_sort_xml "min" f =
        "<SortInfo><Field field=\"" ++ f ++
          "\" order=\"Asc\" /></SortInfo><FieldFilterList><Field field=\"" ++ f ++
          "\" /></FieldFilterList>" ∧
      SortedIn.pi_init_sort_xml "max" f =
        "<SortInfo><Field field=\"" ++ f ++
          "\" order=\"Desc\" /></SortInfo><FieldFilterList><Field field=\"" ++ f ++
          "\" /></FieldFilterList>") ∧
    (∀ (agg f : String) (fields : List SortedIn.SortedField),
      (SortedIn.numericTypes.contains (SortedIn.extract_field_type fields) = false →
        SortedIn.ii_init agg f fields =
          (false, none, [(PySDK.MsgType.error, "Selected A Non-Numeric Field")])) ∧
      (SortedIn.numericTypes.contains (SortedIn.extract_field_type fields) = true →
        SortedIn.ii_init agg f fields =
          (true,
            some (fields.map (fun fl =>
              if fl.name = f then ⟨agg ++ "_" ++ f, fl.ftype⟩ else fl)),
            []))) ∧
    (∀ (r : Int) (rs : List Int),
      SortedIn.run ([] : List Int) (r :: rs) = [r] ∧
      (List.Sorted (fun a b => a ≤ b) (r :: rs) → ∀ x ∈ r :: rs, r ≤ x) ∧
      (List.Sorted (fun a b => a ≥ b) (r :: rs) → ∀ x ∈ r :: rs, x ≤ r)) := by
  refine ⟨?_, ?_, ?_⟩
  · intro f
    constructor
    · simp [SortedIn.pi_init_sort_xml, SortedIn.build_sort_info, String.append_assoc]
      rw [show ∀ X : String, "<SortInfo><" ++ ("Field field=\"" ++ X) =
          "<SortInfo><Field field=\"" ++ X from fun X => by
        rw [← String.append_assoc,
          show ("<SortInfo><" ++ "Field field=\"" : String) =
            "<SortInfo><Field field=\"" from rfl]]
      rw [show ∀ X : String,
          "\" order=\"Asc\" /></SortInfo>" ++ ("<FieldFilterList><" ++ ("Field field=\"" ++ X)) =
          "\" order=\"Asc\" /></SortInfo><FieldFilterList><Field field=\"" ++ X from
        fun X => by
          rw [← String.append_assoc, ← String.append_assoc,
            show ("\" order=\"Asc\" /></SortInfo>" ++ "<FieldFilterList><" ++
                "Field field=\"" : String) =
              "\" order=\"Asc\" /></SortInfo><FieldFilterList><Field field=\"" from rfl]]
    · simp [SortedIn.pi_init_sort_xml, SortedIn.build_sort_info, String.append_assoc]
      rw [show ∀ X : String, "<SortInfo><" ++ ("Field field=\"" ++ X) =
          "<SortInfo><Field field=\"" ++ X from fun X => by
        rw [← String.append_assoc,
          show ("<SortInfo><" ++ "Field field=\"" : String) =
            "<SortInfo><Field field=\"" from rfl]]
      rw [show ∀ X : String,
          "\" order=\"Desc\" /></SortInfo>" ++ ("<FieldFilterList><" ++ ("Field field=\"" ++ X)) =
          "\" order=\"Desc\" /></SortInfo><FieldFilterList><Field field=\"" ++ X from
        fun X => by
          rw [← String.append_assoc, ← String.append_assoc,
            show ("\" order=\"Desc\" /></SortInfo>" ++ "<FieldFilterList><" ++
                "Field field=\"" : String) =
              "\" order=\"Desc\" /></SortInfo><FieldFilterList><Field field=\"" from rfl]]
  · intro agg f fields
    constructor
    · intro hbad
      simp [SortedIn.ii_init, hbad]
      simpa using hbad
    · intro hok
      simp only [SortedIn.ii_init, hok]
      simp [SortedIn.rename_field_by_name]
  · intro r rs
    refine ⟨rfl, ?_, ?_⟩
    · intro hsort x hx
      rcases List.mem_cons.mp hx with rfl | hx'
      · exact le_refl x
      · exact (List.sorted_cons.mp hsort).1 x hx'
    · intro hsort x hx
      rcases List.mem_cons.mp hx with rfl | hx'
      · exact le_refl x
      · exact (List.sorted_cons.mp hsort).1 x hx'

/-- Witness for `sortedTool_min_max` at a concrete field name, a
concrete numeric and non-numeric schema, and a concrete sorted stream. -/
theorem sortedTool_min_max_witness :
    SortedIn.pi_init_sort_xml "min" "Val" =
      "<SortInfo><Field field=\"Val\" order=\"Asc\" /></SortInfo><FieldFilterList><Field field=\"Val\" /></FieldFilterList>" ∧
    SortedIn.ii_init "min" "Val" [⟨"Val", "Double"⟩] =
      (true, some [⟨"min_Val", "Double"⟩], []) ∧
    SortedIn.ii_init "min" "Val" [⟨"Val", "V_WString"⟩] =
      (false, none, [(PySDK.MsgType.error, "Selected A Non-Numeric Field")]) ∧
    SortedIn.run ([] : List Int) [3, 5, 9] = [3] := by
  obtain ⟨h1, h2, h3⟩ := sortedTool_min_max
  refine ⟨?_, ?_, ?_, ?_⟩
  · rw [(h1 "Val").1]
    rfl
  · rw [(h2 "min" "Val" [⟨"Val", "Double"⟩]).2 (by decide)]
    rfl
  · exact (h2 "min" "Val" [⟨"Val", "V_WString"⟩]).1 (by decide)
  · exact (h3 3 [5, 9]).1

namespace InputCsv

/-!
Embedding of `Input Python/Input PythonEngine.py`, class `AyxPlugin`.
The file system is abstracted to whether the configured path exists and
the parsed CSV rows the `csv.reader` would produce; a pushed record is
the row's cell values in order.
-/

open PySDK

/-- The final path component, as `os.path.splitext` isolates it
(separator `/`). -/
def basename_chars (s : String) : List Char :=
  s.toList.foldl (fun acc c => if c = '/' then [] else acc ++ [c]) []

/-- The extension of a basename per `os.path.splitext`: from the last
dot, except that leading dots of the basename never start an
extension. -/
def ext_chars (base : List Char) : List Char :=
  let lead := (base.takeWhile (fun c => c = '.')).length
  let idxs := (List.range base.length).filter
    (fun i => lead ≤ i && base.getD i ' ' = '.')
  match idxs.getLast? with
  | none => []
  | some i => base.drop i

/-- `os.path.splitext(...)[1]` of the configured file name. -/
def file_extension (s : String) : String :=
  String.mk (ext_chars (basename_chars s))

/-- Python `str.lower()` (ASCII). -/
def lower (s : String) : String :=
  String.mk (s.toList.map Char.toLower)

/-- `AyxPlugin.is_csv`: the extension, lower-cased, equals `.csv`. -/
def is_csv (file_input_name : String) : Bool :=
  lower (file_extension file_input_name) = ".csv"

/-- The outcome of `pi_push_all_records`: its return value, the emitted
messages, the declared output fields as (name, type, size) triples, and
the pushed records. -/
structure PushResult where
  ret : Bool
  messages : List (MsgType × String)
  fields : List (String × String × Nat)
  pushed : List (List String)
deriving Repr, DecidableEq

/-- The record-pushing loop of `pi_push_all_records`: one record per CSV
row; a row with more cells than there are declared fields would index
`record_info_out` out of range and raise. -/
def push_rows (header_len : Nat) : List (List String) → Except PyExc (List (List String))
  | [] => .ok []
  | row :: rest =>
    if row.length ≤ header_len then
      match push_rows header_len rest with
      | .ok pushed => .ok (row :: pushed)
      | .error e => .error e
    else
      .error .indexError

/-- `AyxPlugin.pi_push_all_records`: returns `False` when not
initialized; errors (message, `False`, nothing pushed) on an empty file
name, a non-`.csv` extension, or a missing path; otherwise declares one
`v_wstring` field of size 254 per header cell (`next(file_reader)`
raising `StopIteration` on an empty file), pushes one record per
remaining row, emits the row-count info message, and returns `True`. -/
def pi_push_all_records (initialized : Bool) (file_input_name : String)
    (path_exists : Bool) (rows : List (List String)) : Except PyExc PushResult :=
  if !initialized then
    .ok ⟨false, [], [], []⟩
  else if file_input_name = "" then
    .ok ⟨false, [(.error, "Please specify a csv file")], [], []⟩
  else if !is_csv file_input_name then
    .ok ⟨false, [(.error, "This tool only accepts csv files")], [], []⟩
  else if !path_exists then
    .ok ⟨false, [(.error, "No such file or directory: " ++ file_input_name)], [], []⟩
  else
    match rows with
    | [] => .error .stopIteration
    | header :: rest =>
      let fields := header.map (fun h => (h, "v_wstring", 254))
      match push_rows header.length rest with
      | .ok pushed =>
        .ok ⟨true,
          [(.info, toString rest.length ++ " records were read from " ++ file_input_name)],
          fields, pushed⟩
      | .error e => .error e

/-- When every row fits within the header, the loop pushes exactly the
rows. -/
theorem push_rows_ok (header_len : Nat) (rows : List (List String))
    (hfit : ∀ row ∈ rows, row.length ≤ header_len) :
    push_rows header_len rows = .ok rows := by
  induction rows with
  | nil => rfl
  | cons row rest ih =>
    have h1 : row.length ≤ header_len := hfit row (by simp)
    have h2 : push_rows header_len rest = .ok rest :=
      ih (fun r hr => hfit r (by simp [hr]))
    simp [push_rows, h1, h2]

end InputCsv

/-- C6: the CSV reader's `pi_push_all_records` returns `False` after an
error message and no pushed records when the configured file name is
empty, its extension is not `.csv` case-insensitively, or the path does
not exist; otherwise it declares one `v_wstring` field of size 254 per
header cell, pushes one record per remaining row, emits an info message
with the row count, and returns `True` (stated after `pi_init`, which
always sets `initialized`; rows are assumed to fit their header, as the
host's `RecordInfo` indexing otherwise raises). -/
theorem inputCsv_push_all (name : String) (header : List String)
    (rest : List (List String)) (hname : name ≠ "")
    (hfit : ∀ row ∈ rest, row.length ≤ header.length) :
    (∀ (pe : Bool) (rows : List (List String)),
      InputCsv.pi_push_all_records true "" pe rows =
        .ok ⟨false, [(PySDK.MsgType.error, "Please specify a csv file")], [], []⟩) ∧
    (InputCsv.is_csv name = false → ∀ (pe : Bool) (rows : List (List String)),
      InputCsv.pi_push_all_records true name pe rows =
        .ok ⟨false, [(PySDK.MsgType.error, "This tool only accepts csv files")], [], []⟩) ∧
    (InputCsv.is_csv name = true → ∀ rows : List (List String),
      InputCsv.pi_push_all_records true name false rows =
        .ok ⟨false,
          [(PySDK.MsgType.error, "No such file or directory: " ++ name)], [], []⟩) ∧
    (InputCsv.is_csv name = true →
      InputCsv.pi_push_all_records true name true (header :: rest) =
        .ok ⟨true,
          [(PySDK.MsgType.info,
            toString rest.length ++ " records were read from " ++ name)],
          header.map (fun h => (h, "v_wstring", 254)), rest⟩) ∧
    (∀ (nm : String) (pe : Bool) (rows : List (List String)),
      InputCsv.pi_push_all_records false nm pe rows = .ok ⟨false, [], [], []⟩) := by
  refine ⟨?_, ?_, ?_, ?_, ?_⟩
  · intro pe rows
    simp [InputCsv.pi_push_all_records]
  · intro hcsv pe rows
    simp [InputCsv.pi_push_all_records, hname, hcsv]
  · intro hcsv rows
    simp [InputCsv.pi_push_all_records, hname, hcsv]
  · intro hcsv
    simp [InputCsv.pi_push_all_records, hname, hcsv,
      InputCsv.push_rows_ok header.length rest hfit]
  · intro nm pe rows
    simp [InputCsv.pi_push_all_records]

/-- Witness for `inputCsv_push_all` with a two-column, two-row CSV under
a mixed-case `.CSV` name, plus the missing-file and wrong-extension
error branches at concrete inputs. -/
theorem inputCsv_push_all_witness :
    InputCsv.pi_push_all_records true "data/sales.CSV" true
        [["id", "name"], ["1", "a"], ["2", "b"]] =
      .ok ⟨true,
        [(PySDK.MsgType.info, "2 records were read from data/sales.CSV")],
        [("id", "v_wstring", 254), ("name", "v_wstring", 254)],
        [["1", "a"], ["2", "b"]]⟩ ∧
    InputCsv.pi_push_all_records true "data/sales.txt" true [["id"]] =
      .ok ⟨false, [(PySDK.MsgType.error, "This tool only accepts csv files")], [], []⟩ ∧
    InputCsv.pi_push_all_records true "data/sales.CSV" false [["id"]] =
      .ok ⟨false,
        [(PySDK.MsgType.error, "No such file or directory: data/sales.CSV")], [], []⟩ := by
  obtain ⟨-, -, h3, h4, -⟩ := inputCsv_push_all "data/sales.CSV" ["id", "name"]
    [["1", "a"], ["2", "b"]] (by decide) (by decide)
  obtain ⟨-, h2', -, -, -⟩ := inputCsv_push_all "data/sales.txt" ["id"] [] (by decide)
    (by decide)
  refine ⟨?_, ?_, ?_⟩
  · have := h4 (by decide)
    rw [this]
    rfl
  · exact h2' (by decide) true [["id"]]
  · exact h3 (by decide) [["id"]]

namespace OptionalIn

/-!
Embedding of `Python - Optional Input/Python - Optional InputEngine.py`,
class `AyxPlugin`, method `pi_push_all_records` (the no-incoming-connection
field generator).  The configuration values parsed in `pi_init` are
integers: `total_record_count` (`EndValue`), `record_increment`
(`StepByValue`), and `starting_value`, which `pi_init` stores as
`int(StartValue) - record_increment`.
-/

/-- The generation loop: `loop_value = previous_inc_value +
record_increment` is pushed on each of the `range(0, total_record_count)`
iterations, with `previous_inc_value` carried forward. -/
def gen_values (previous_inc_value record_increment : Int) : Nat → List Int
  | 0 => []
  | k + 1 =>
    (previous_inc_value + record_increment) ::
      gen_values (previous_inc_value + record_increment) record_increment k

/-- `AyxPlugin.pi_push_all_records`: returns `False` doing nothing when
not initialized; otherwise declares the single configured output field,
pushes the generated values, closes the output anchor, and returns
`True`.  Result: (return value, declared fields, pushed values, anchor
closed). -/
def pi_push_all_records (is_initialized : Bool) (column_name output_type : String)
    (starting_value record_increment total_record_count : Int) :
    Bool × List (String × String) × List Int × Bool :=
  if !is_initialized then
    (false, [], [], false)
  else
    (true, [(column_name, output_type)],
      gen_values starting_value record_increment total_record_count.toNat, true)

/-- Entry-wise description of the generation loop. -/
theorem gen_values_get? (record_increment : Int) :
    ∀ (n : Nat) (p : Int) (k : Nat),
      (gen_values p record_increment n).get? k =
        if k < n then some (p + (k + 1) * record_increment) else none := by
  intro n
  induction n with
  | zero =>
    intro p k
    simp [gen_values]
  | succ n ih =>
    intro p k
    cases k with
    | zero =>
      simp [gen_values]
    | succ k =>
      rw [show gen_values p record_increment (n + 1) =
        (p + record_increment) ::
          gen_values (p + record_increment) record_increment n from rfl]
      rw [List.get?_cons_succ]
      rw [ih (p + record_increment) k]
      by_cases hk : k < n
      · rw [if_pos hk, if_pos (by omega)]
        congr 1
        push_cast
        ring
      · rw [if_neg hk, if_neg (by omega)]

/-- The generation loop produces one value per iteration. -/
theorem gen_values_length (record_increment : Int) :
    ∀ (n : Nat) (p : Int), (gen_values p record_increment n).length = n := by
  intro n
  induction n with
  | zero =>
    intro p
    rfl
  | succ n ih =>
    intro p
    simp [gen_values, ih]

end OptionalIn

/-- C7: the field-generator tool's `pi_push_all_records`, when
initialized, pushes exactly `total_record_count` records, each a single
field of the configured type whose value in the `k`-th record (`k` from
1) is `starting_value + k * record_increment` in exact integer
arithmetic, closes the output anchor, and returns `True`; when not
initialized it returns `False` and pushes nothing. -/
theorem counter_arithmetic_sequence (column_name output_type : String)
    (starting_value record_increment total_record_count : Int)
    (htotal : 0 ≤ total_record_count) :
    (OptionalIn.pi_push_all_records true column_name output_type
        starting_value record_increment total_record_count).1 = true ∧
    (OptionalIn.pi_push_all_records true column_name output_type
        starting_value record_increment total_record_count).2.1 =
      [(column_name, output_type)] ∧
    (((OptionalIn.pi_push_all_records true column_name output_type
        starting_value record_increment total_record_count).2.2.1).length : Int) =
      total_record_count ∧
    (∀ k : Nat, (k : Int) < total_record_count →
      ((OptionalIn.pi_push_all_records true column_name output_type
          starting_value record_increment total_record_count).2.2.1).get? k =
        some (starting_value + (k + 1) * record_increment)) ∧
    (OptionalIn.pi_push_all_records true column_name output_type
        starting_value record_increment total_record_count).2.2.2 = true ∧
    (∀ (cn ot : String) (sv inc tot : Int),
      OptionalIn.pi_push_all_records false cn ot sv inc tot = (false, [], [], false)) := by
  refine ⟨rfl, rfl, ?_, ?_, rfl, ?_⟩
  · show ((OptionalIn.gen_values starting_value record_increment
      total_record_count.toNat).length : Int) = total_record_count
    rw [OptionalIn.gen_values_length]
    omega
  · intro k hk
    show (OptionalIn.gen_values starting_value record_increment
      total_record_count.toNat).get? k = _
    rw [OptionalIn.gen_values_get?]
    rw [if_pos (by omega)]
  · intro cn ot sv inc tot
    rfl

/-- Witness for `counter_arithmetic_sequence` with start 10, increment 3
and four records. -/
theorem counter_arithmetic_sequence_witness :
    ((OptionalIn.pi_push_all_records true "cnt" "int32" 10 3 4).2.2.1).get? 2 =
      some 19 ∧
    (((OptionalIn.pi_push_all_records true "cnt" "int32" 10 3 4).2.2.1).length : Int) = 4 ∧
    (OptionalIn.pi_push_all_records true "cnt" "int32" 10 3 4).1 = true := by
  obtain ⟨h1, -, h3, h4, -, -⟩ :=
    counter_arithmetic_sequence "cnt" "int32" 10 3 4 (by decide)
  refine ⟨?_, h3, h1⟩
  have := h4 2 (by decide)
  rw [this]
  rfl

example : PySDK.parsePyInt "  42 " = some 42 := by decide
example : PySDK.parsePyInt "-1_0" = some (-10) := by decide
example : PySDK.parsePyInt "abc" = none := by decide
example : PySDK.parsePyInt "" = none := by decide
example : PySDK.parsePyInt "1__2" = none := by decide
example : PySDK.parsePyInt "+7" = some 7 := by decide
example :
    (PySelectTopN.run (PySelectTopN.initState Nat "2") [10, 20, 30, 40]).2.pushed = [10, 20] := by
  decide
example :
    (SingleInOut.run (SingleInOut.initState Nat "2") [10, 20, 30, 40]).2.pushed = [10, 20] := by
  decide
